import Mathlib

/-!
Verification of the Room/Challenge session model and the profile operations
of the KidQuest Champions application.

The definitions below are a shallow embedding of the TypeScript source:
  - `src/pages/RoomsPage.tsx` : the `Room` record shape, `createRoom`,
    `joinRoom` (validation path) and `fetchRooms` (room listing).
  - `src/contexts/AuthContext.tsx` : the `UserProfile` record shape,
    `addCompletedTask`, `addFriend`, `removeFriend`.
The document store (Firestore collections keyed by document id) is modelled
as an association list from id to record; a store read is a first-match
lookup, a store update rewrites the record at the given id.
-/

/-- `status` field of a `Room` (RoomsPage.tsx line 33). -/
inductive RoomStatus
  | waiting
  | active
  | completed
deriving DecidableEq

/-- `currentChallenge.status` (RoomsPage.tsx line 45). -/
inductive ChallengeStatus
  | pending
  | accepted
  | rejected
  | completed
deriving DecidableEq

/-- An entry of the `messages` array (RoomsPage.tsx lines 35-39).
Timestamps are epoch milliseconds, modelled as `Nat`. -/
structure ChatMessage where
  senderId : String
  text : String
  timestamp : Nat
deriving DecidableEq

/-- The `currentChallenge` sub-record (RoomsPage.tsx lines 40-48). -/
structure Challenge where
  themeId : String
  taskId : String
  challengerId : String
  challengedId : String
  status : ChallengeStatus
  winnerId : Option String
  suggestedAt : Nat
deriving DecidableEq

/-- A room document as stored (RoomsPage.tsx lines 27-49, minus the `id`
field and the display-only `player1Name`/`player2Name`, which are not part
of the stored record: the id is the document key and the names are computed
at listing time). `player2Id : string | null` becomes `Option String`. -/
structure Room where
  player1Id : String
  player2Id : Option String
  status : RoomStatus
  createdAt : Nat
  messages : List ChatMessage
  currentChallenge : Option Challenge
deriving DecidableEq

/-- The `rooms` collection: document id paired with the room record. -/
abbrev RoomStore := List (String × Room)

/-- Store read: `getDoc` on `rooms/<id>`, first record with that key. -/
def roomStoreGet (s : RoomStore) (id : String) : Option Room :=
  (s.find? (fun p => p.1 = id)).map (fun p => p.2)

/-- Store update: rewrite the record stored at `id`, leaving other ids
untouched (Firestore per-document write). -/
def roomStoreSet (s : RoomStore) (id : String) (r : Room) : RoomStore :=
  s.map (fun p => if p.1 = id then (id, r) else p)

/-- The record inserted by `createRoom` (RoomsPage.tsx lines 165-172):
`player1Id` is the creator, `player2Id` null, `status` 'waiting',
`createdAt` the current time, `messages` empty, `currentChallenge` null. -/
def createRoom (creatorId : String) (now : Nat) : Room :=
  { player1Id := creatorId
    player2Id := none
    status := RoomStatus.waiting
    createdAt := now
    messages := []
    currentChallenge := none }

/-- `addDoc(roomsRef, newRoom)` (RoomsPage.tsx line 174): insert the new
record under a store-assigned fresh id. -/
def createRoomOp (s : RoomStore) (freshId creatorId : String) (now : Nat) :
    RoomStore :=
  (freshId, createRoom creatorId now) :: s

/-- JavaScript `String.prototype.trim`: strip leading and trailing
whitespace (RoomsPage.tsx uses `joinRoomId.trim()`). -/
def jsTrim (s : String) : String :=
  String.mk
    (((s.data.dropWhile Char.isWhitespace).reverse.dropWhile
        Char.isWhitespace).reverse)

/-- Outcome of a `joinRoom` call, as observable at the UI boundary:
a silent early return, one of the two error modals, or a navigation into
the room (with or without a membership write). -/
inductive JoinResult
  | silentNoOp
  | roomNotFound
  | alreadyMember
  | roomFull
  | joined
deriving DecidableEq

/-- Modelled from the spec: the membership write performed by the room
detail page. `RoomDetail.tsx` is imported by the application shell but is
not among the provided sources; per the spec, joining a room with a free
second slot "sets `player2Id = joinerId`". -/
def joinWrite (room : Room) (joinerId : String) : Room :=
  { room with player2Id := some joinerId }

/-- `joinRoom` (RoomsPage.tsx lines 190-238): early return when there is no
authenticated user or the entered id trims to empty; `RoomNotFound` when the
store has no document at the trimmed id; a pure navigation when the caller
is already `player1Id` or `player2Id`; `RoomFull` when `player2Id` is set
(necessarily to a different user at this point); otherwise the join
proceeds, the membership write being `joinWrite` (spec-modelled, see
there). Returns the resulting store and the observable outcome. -/
def joinRoom (s : RoomStore) (currentUser : Option String)
    (joinRoomId : String) : RoomStore × JoinResult :=
  match currentUser with
  | none => (s, JoinResult.silentNoOp)
  | some uid =>
    if (jsTrim joinRoomId).isEmpty then (s, JoinResult.silentNoOp)
    else
      let rid := jsTrim joinRoomId
      match roomStoreGet s rid with
      | none => (s, JoinResult.roomNotFound)
      | some room =>
        if room.player1Id = uid ∨ room.player2Id = some uid then
          (s, JoinResult.alreadyMember)
        else if room.player2Id ≠ none then
          (s, JoinResult.roomFull)
        else
          (roomStoreSet s rid (joinWrite room uid), JoinResult.joined)

/-- A user profile document (AuthContext.tsx lines 25-36). The nested
`location` object is irrelevant to every claim and is kept as its three
string fields. -/
structure UserProfile where
  username : String
  avatarUrl : String
  coins : Nat
  locationCity : String
  locationState : String
  locationCountry : String
  completedTasks : List String
  friendsList : List String
deriving DecidableEq

/-- `addCompletedTask` (AuthContext.tsx lines 224-253), as the update it
applies to the caller's profile record: no-op when `taskId` is already in
`completedTasks`; otherwise one combined write of the extended task list
and the increased coin balance. -/
def addCompletedTask (p : UserProfile) (taskId : String) (coinsEarned : Nat) :
    UserProfile :=
  if p.completedTasks.contains taskId then p
  else
    { p with
      completedTasks := p.completedTasks ++ [taskId]
      coins := p.coins + coinsEarned }

/-- `addFriend` (AuthContext.tsx lines 255-281): no-op when `friendId` is
already in `friendsList`, otherwise append it. No check whatsoever against
the caller's own identifier. -/
def addFriend (p : UserProfile) (friendId : String) : UserProfile :=
  if p.friendsList.contains friendId then p
  else { p with friendsList := p.friendsList ++ [friendId] }

/-- `removeFriend` (AuthContext.tsx lines 283-307): filter every occurrence
of `friendId` out of `friendsList`; an absent id leaves the list as is. -/
def removeFriend (p : UserProfile) (friendId : String) : UserProfile :=
  { p with friendsList := p.friendsList.filter (fun id => id ≠ friendId) }

/-- The `users` collection, for the operations that act on the caller's own
document. -/
abbrev UserStore := List (String × UserProfile)

/-- `getDoc` on `users/<uid>`. -/
def userStoreGet (us : UserStore) (uid : String) : Option UserProfile :=
  (us.find? (fun p => p.1 = uid)).map (fun p => p.2)

/-- `updateDoc` on `users/<uid>`. -/
def userStoreSet (us : UserStore) (uid : String) (p : UserProfile) :
    UserStore :=
  us.map (fun q => if q.1 = uid then (uid, p) else q)

/-- `addFriend` at the store level: the guard `if (!currentUser ||
!userProfile) return` becomes a no-op when `uid` has no profile; otherwise
the update is written to the caller's own document `users/<uid>`. -/
def addFriendBy (us : UserStore) (uid friendId : String) : UserStore :=
  match userStoreGet us uid with
  | none => us
  | some p => userStoreSet us uid (addFriend p friendId)

/-- A room as delivered to the UI by the listing code: the document id and
record together with the two display names computed at fetch time
(RoomsPage.tsx lines 104-109 and 128-133). -/
structure EnrichedRoom where
  id : String
  room : Room
  player1Name : String
  player2Name : String
deriving DecidableEq

/-- JavaScript `a || b` on an optional string `a`: falls back to `b` when
`a` is null/undefined or the empty string (both falsy). -/
def jsOrElse (a : Option String) (b : String) : String :=
  match a with
  | some s => if s.isEmpty then b else s
  | none => b

/-- Resolution of the second player's username for a room listed from the
player1 side (RoomsPage.tsx lines 91-102): the profile is fetched only when
`roomData.player2Id` is truthy; a missing profile document or a failed
fetch leaves the name null. `users` maps a uid to its stored username when
that profile can be resolved. -/
def fetchPlayer2Name (users : String → Option String) (room : Room) :
    Option String :=
  match room.player2Id with
  | some pid => if pid.isEmpty then none else users pid
  | none => none

/-- Display ordering produced by `rooms.sort((a, b) => b.createdAt -
a.createdAt)` (RoomsPage.tsx line 137): newest first. -/
def byNewest (a b : EnrichedRoom) : Prop :=
  b.room.createdAt ≤ a.room.createdAt

instance : DecidableRel byNewest :=
  fun a b => Nat.decLe b.room.createdAt a.room.createdAt

instance : IsTotal EnrichedRoom byNewest :=
  ⟨fun a b => Nat.le_total b.room.createdAt a.room.createdAt⟩

instance : IsTrans EnrichedRoom byNewest :=
  ⟨fun _ _ _ hab hbc => Nat.le_trans hbc hab⟩

/-- Enrichment of a room listed from the player1 side (RoomsPage.tsx lines
104-109): own name with fallback 'You', second player's name with fallback
'Waiting...'. -/
def enrichAsPlayer1 (ownUsername : Option String)
    (users : String → Option String) (p : String × Room) : EnrichedRoom :=
  { id := p.1
    room := p.2
    player1Name := jsOrElse ownUsername "You"
    player2Name := jsOrElse (fetchPlayer2Name users p.2) "Waiting..." }

/-- Enrichment of a room listed from the player2 side (RoomsPage.tsx lines
128-133): first player's name with fallback 'Unknown', own name with
fallback 'You'. -/
def enrichAsPlayer2 (ownUsername : Option String)
    (users : String → Option String) (p : String × Room) : EnrichedRoom :=
  { id := p.1
    room := p.2
    player1Name := jsOrElse (users p.2.player1Id) "Unknown"
    player2Name := jsOrElse ownUsername "You" }

/-- `fetchRooms` (RoomsPage.tsx lines 62-150): query the rooms where the
user is `player1Id` and those where they are `player2Id`, enrich each with
the two display names, and sort the concatenation newest-first.
`ownUsername` is `userProfile?.username`. -/
def fetchRooms (s : RoomStore) (uid : String) (ownUsername : Option String)
    (users : String → Option String) : List EnrichedRoom :=
  List.insertionSort byNewest
    ((s.filter (fun p => decide (p.2.player1Id = uid))).map
        (enrichAsPlayer1 ownUsername users) ++
      (s.filter (fun p => decide (p.2.player2Id = some uid))).map
        (enrichAsPlayer2 ownUsername users))

/-- Business-rule errors surfaced by the challenge transitions (spec §7). -/
inductive RoomError
  | unauthorized
  | invalidTransition
deriving DecidableEq

/-- Modelled from the spec: the accept/reject transition of the room detail
page. `RoomDetail.tsx` is imported by the application shell but is not
among the provided sources; per the spec, "only `challengedId` may
transition `pending → accepted` or `pending → rejected`; attempts by any
other identifier fail with `Unauthorized`". Returns the room (unchanged on
error) and the error, if any. -/
def respondToChallenge (room : Room) (responderId : String) (accept : Bool) :
    Room × Option RoomError :=
  match room.currentChallenge with
  | none => (room, some RoomError.invalidTransition)
  | some ch =>
    if ch.status ≠ ChallengeStatus.pending then
      (room, some RoomError.invalidTransition)
    else if responderId ≠ ch.challengedId then
      (room, some RoomError.unauthorized)
    else
      ({ room with
          currentChallenge := some
            { ch with
                status :=
                  if accept then ChallengeStatus.accepted
                  else ChallengeStatus.rejected } }, none)

/-- One profile mutation in a call sequence: `addFriend` or `removeFriend`
with the given argument. -/
inductive FriendOp
  | add (friendId : String)
  | remove (friendId : String)

/-- Apply a sequence of `addFriend`/`removeFriend` calls to a profile, in
order. -/
def applyFriendOps (p : UserProfile) : List FriendOp → UserProfile
  | [] => p
  | FriendOp.add f :: rest => applyFriendOps (addFriend p f) rest
  | FriendOp.remove f :: rest => applyFriendOps (removeFriend p f) rest

/-- C4: for every creator identifier, `createRoom` inserts a new room
record with `player1Id` equal to the creator, `player2Id` null, status
'waiting', `createdAt` set to the current time, an empty messages sequence,
and a null `currentChallenge`. -/
theorem createRoom_inserts_waiting_room (s : RoomStore)
    (freshId creatorId : String) (now : Nat) :
    roomStoreGet (createRoomOp s freshId creatorId now) freshId =
      some (createRoom creatorId now) ∧
    (createRoom creatorId now).player1Id = creatorId ∧
    (createRoom creatorId now).player2Id = none ∧
    (createRoom creatorId now).status = RoomStatus.waiting ∧
    (createRoom creatorId now).createdAt = now ∧
    (createRoom creatorId now).messages = [] ∧
    (createRoom creatorId now).currentChallenge = none := by
  refine ⟨?_, rfl, rfl, rfl, rfl, rfl, rfl⟩
  simp [roomStoreGet, createRoomOp]

/-- C10: `joinRoom` called with no authenticated user, or with a room id
that trims to the empty string, returns the silent no-op outcome and
leaves any store unchanged; the outcome is the same for every store, so
the store is neither read nor written and no error is surfaced. -/
theorem joinRoom_blank_or_anonymous_silent (s : RoomStore)
    (currentUser : Option String) (joinRoomId : String)
    (h : currentUser = none ∨ (jsTrim joinRoomId).isEmpty = true) :
    joinRoom s currentUser joinRoomId = (s, JoinResult.silentNoOp) := by
  cases currentUser with
  | none => rfl
  | some uid =>
    rcases h with h | h
    · exact absurd h (by simp)
    · simp [joinRoom, h]

/-- C10 witness. -/
theorem joinRoom_blank_or_anonymous_silent_w :
    joinRoom [("r1", createRoom "a" 0)] (some "u") "   " =
      ([("r1", createRoom "a" 0)], JoinResult.silentNoOp) :=
  joinRoom_blank_or_anonymous_silent [("r1", createRoom "a" 0)] (some "u")
    "   " (Or.inr (by decide))

/-- C1: for every room id and joiner, `joinRoom` fails with `RoomNotFound`
when no room with the trimmed id exists; no-ops (a pure navigation, store
unchanged) when the joiner already equals `player1Id` or `player2Id`;
fails with `RoomFull` when `player2Id` is set to a different user; and
otherwise records the joiner as `player2Id` (membership write modelled
from the spec, see `joinWrite`). -/
theorem joinRoom_cases (s : RoomStore) (uid joinRoomId : String)
    (hid : (jsTrim joinRoomId).isEmpty = false) :
    (roomStoreGet s (jsTrim joinRoomId) = none →
      joinRoom s (some uid) joinRoomId = (s, JoinResult.roomNotFound)) ∧
    (∀ room, roomStoreGet s (jsTrim joinRoomId) = some room →
      room.player1Id = uid ∨ room.player2Id = some uid →
      joinRoom s (some uid) joinRoomId = (s, JoinResult.alreadyMember)) ∧
    (∀ room v, roomStoreGet s (jsTrim joinRoomId) = some room →
      room.player1Id ≠ uid → room.player2Id = some v → v ≠ uid →
      joinRoom s (some uid) joinRoomId = (s, JoinResult.roomFull)) ∧
    (∀ room, roomStoreGet s (jsTrim joinRoomId) = some room →
      room.player1Id ≠ uid → room.player2Id = none →
      joinRoom s (some uid) joinRoomId =
        (roomStoreSet s (jsTrim joinRoomId) (joinWrite room uid),
          JoinResult.joined)) := by
  refine ⟨?_, ?_, ?_, ?_⟩
  · intro h
    simp [joinRoom, hid, h]
  · intro room h hmem
    rcases hmem with h1 | h2
    · simp [joinRoom, hid, h, h1]
    · simp [joinRoom, hid, h, h2]
  · intro room v h hp1 hp2 hvu
    have h1 : ¬ (room.player1Id = uid) := hp1
    simp [joinRoom, hid, h, h1, hp2, Option.some_inj, hvu]
  · intro room h hp1 hp2
    have h1 : ¬ (room.player1Id = uid) := hp1
    simp [joinRoom, hid, h, h1, hp2]

/-- C1 witness: the not-found branch at a concrete store and id. -/
theorem joinRoom_cases_w :
    joinRoom [("r1", createRoom "a" 0)] (some "u") "missing" =
      ([("r1", createRoom "a" 0)], JoinResult.roomNotFound) :=
  (joinRoom_cases [("r1", createRoom "a" 0)] "u" "missing" (by decide)).1
    (by decide)

/-- C2: once `player2Id` is set, `joinRoom` by a third identifier distinct
from both participants fails with `RoomFull` and the store — hence the room
record — is returned unchanged. -/
theorem joinRoom_full_third_party (s : RoomStore) (uid v joinRoomId : String)
    (room : Room) (hid : (jsTrim joinRoomId).isEmpty = false)
    (h : roomStoreGet s (jsTrim joinRoomId) = some room)
    (hp2 : room.player2Id = some v)
    (h1 : uid ≠ room.player1Id) (h2 : uid ≠ v) :
    joinRoom s (some uid) joinRoomId = (s, JoinResult.roomFull) := by
  have h1n : ¬ (room.player1Id = uid) := fun hq => h1 hq.symm
  have h2n : ¬ (v = uid) := fun hq => h2 hq.symm
  simp [joinRoom, hid, h, h1n, hp2, h2n]

/-- C2 witness. -/
theorem joinRoom_full_third_party_w :
    joinRoom [("r1", { createRoom "a" 0 with player2Id := some "b" })]
        (some "c") "r1" =
      ([("r1", { createRoom "a" 0 with player2Id := some "b" })],
        JoinResult.roomFull) :=
  joinRoom_full_third_party
    [("r1", { createRoom "a" 0 with player2Id := some "b" })] "c" "b" "r1"
    { createRoom "a" 0 with player2Id := some "b" } (by decide) (by decide)
    rfl (by decide) (by decide)

/-- C3: `joinRoom` is idempotent for an identifier already in the room:
the call is a pure navigation leaving the store as it was, and a second
call with the same identifier produces the identical store and outcome. -/
theorem joinRoom_idempotent (s : RoomStore) (uid joinRoomId : String)
    (room : Room) (hid : (jsTrim joinRoomId).isEmpty = false)
    (h : roomStoreGet s (jsTrim joinRoomId) = some room)
    (hmem : room.player1Id = uid ∨ room.player2Id = some uid) :
    joinRoom s (some uid) joinRoomId = (s, JoinResult.alreadyMember) ∧
    joinRoom (joinRoom s (some uid) joinRoomId).1 (some uid) joinRoomId =
      (s, JoinResult.alreadyMember) := by
  have h1 : joinRoom s (some uid) joinRoomId =
      (s, JoinResult.alreadyMember) := by
    rcases hmem with hm | hm
    · simp [joinRoom, hid, h, hm]
    · simp [joinRoom, hid, h, hm]
  refine ⟨h1, ?_⟩
  rw [h1]
  exact h1

/-- C3 witness. -/
theorem joinRoom_idempotent_w :
    joinRoom [("r1", createRoom "a" 0)] (some "a") "r1" =
      ([("r1", createRoom "a" 0)], JoinResult.alreadyMember) :=
  (joinRoom_idempotent [("r1", createRoom "a" 0)] "a" "r1"
    (createRoom "a" 0) (by decide) rfl (Or.inl rfl)).1

/-- C7: `addCompletedTask` is idempotent in its task argument: for a task
not yet completed, the first call appends it to `completedTasks` and adds
the coin amount in the same combined update, and a second call with the
same task changes nothing. -/
theorem addCompletedTask_idempotent (p : UserProfile) (t : String) (c : Nat)
    (h : t ∉ p.completedTasks) :
    (addCompletedTask p t c).completedTasks = p.completedTasks ++ [t] ∧
    (addCompletedTask p t c).coins = p.coins + c ∧
    addCompletedTask (addCompletedTask p t c) t c = addCompletedTask p t c := by
  refine ⟨by simp [addCompletedTask, h], by simp [addCompletedTask, h], ?_⟩
  have hc2 : (addCompletedTask p t c).completedTasks.contains t = true := by
    simp [addCompletedTask, h]
  conv_lhs => rw [addCompletedTask]
  exact if_pos hc2

/-- C7 witness. -/
theorem addCompletedTask_idempotent_w :
    (addCompletedTask ⟨"n", "a", 3, "c", "s", "co", [], []⟩ "t" 7).coins =
      3 + 7 :=
  (addCompletedTask_idempotent ⟨"n", "a", 3, "c", "s", "co", [], []⟩ "t" 7
    (by decide)).2.1

/-- C6: on a room whose current challenge is pending, the participant named
`challengedId` may transition it to accepted or rejected, and any other
identifier (the challenger included) gets `Unauthorized` with the room
returned unchanged. -/
theorem respondToChallenge_authorization (room : Room) (ch : Challenge)
    (uid : String) (accept : Bool)
    (hch : room.currentChallenge = some ch)
    (hp : ch.status = ChallengeStatus.pending) :
    (uid = ch.challengedId →
      respondToChallenge room uid accept =
        ({ room with
            currentChallenge := some
              { ch with
                  status :=
                    if accept then ChallengeStatus.accepted
                    else ChallengeStatus.rejected } }, none)) ∧
    (uid ≠ ch.challengedId →
      respondToChallenge room uid accept =
        (room, some RoomError.unauthorized)) := by
  constructor
  · intro he
    simp [respondToChallenge, hch, hp, he]
  · intro hne
    simp [respondToChallenge, hch, hp, hne]

/-- C6 witness: the challenger's own accept attempt is rejected as
unauthorized. -/
theorem respondToChallenge_authorization_w :
    respondToChallenge
        { createRoom "a" 0 with
            player2Id := some "b"
            currentChallenge := some
              ⟨"space", "t1", "a", "b", ChallengeStatus.pending, none, 1⟩ }
        "a" true =
      ({ createRoom "a" 0 with
          player2Id := some "b"
          currentChallenge := some
            ⟨"space", "t1", "a", "b", ChallengeStatus.pending, none, 1⟩ },
        some RoomError.unauthorized) :=
  (respondToChallenge_authorization
    { createRoom "a" 0 with
        player2Id := some "b"
        currentChallenge := some
          ⟨"space", "t1", "a", "b", ChallengeStatus.pending, none, 1⟩ }
    ⟨"space", "t1", "a", "b", ChallengeStatus.pending, none, 1⟩
    "a" true rfl rfl).2 (by decide)

/-- A profile that already lists "a" as a friend, used to exhibit the
failure of the unconditional add/remove round-trip law. -/
def presentFriendProfile : UserProfile :=
  ⟨"New Explorer", "", 0, "Adventure City", "Questland", "Imagination",
    [], ["a"]⟩

/-- C8 counterexample: for a profile whose `friendsList` already holds the
identifier, `addFriend` no-ops and `removeFriend` then deletes it, so the
round-trip does not return `friendsList` to its prior state. -/
theorem addRemoveFriend_roundTrip_fails :
    (removeFriend (addFriend presentFriendProfile "a") "a").friendsList ≠
      presentFriendProfile.friendsList := by decide

/-- C8 (amended): `addFriend` then `removeFriend` with the same identifier
returns `friendsList` to its prior state whenever the identifier was not
already present, and `removeFriend` of an absent identifier is a silent
no-op (never an error). -/
theorem addRemoveFriend_roundTrip_fresh (p : UserProfile) (f : String)
    (h : f ∉ p.friendsList) :
    (removeFriend (addFriend p f) f).friendsList = p.friendsList ∧
    removeFriend p f = p := by
  have hfilter : p.friendsList.filter (fun id => id ≠ f) = p.friendsList := by
    apply List.filter_eq_self.mpr
    intro a ha
    have hne : a ≠ f := fun hEq => h (hEq ▸ ha)
    simpa using hne
  constructor
  · simp [addFriend, h, removeFriend, List.filter_append, hfilter]
    exact fun a ha hEq => h (hEq ▸ ha)
  · show { p with
        friendsList := p.friendsList.filter (fun id => id ≠ f) } = p
    rw [hfilter]

/-- C8 witness. -/
theorem addRemoveFriend_roundTrip_fresh_w :
    removeFriend
        (⟨"n", "a", 0, "c", "s", "co", [], []⟩ : UserProfile) "b" =
      ⟨"n", "a", 0, "c", "s", "co", [], []⟩ :=
  (addRemoveFriend_roundTrip_fresh ⟨"n", "a", 0, "c", "s", "co", [], []⟩
    "b" (by decide)).2

/-- A brand-new profile with an empty friends list (the shape produced for
a first-time user). -/
def freshOwnerProfile : UserProfile :=
  ⟨"New Explorer", "", 0, "Adventure City", "Questland", "Imagination",
    [], []⟩

/-- C9 counterexample: `addFriend` performs no check against the caller's
own identifier, so the single call `addFriend("u")` issued by user "u" puts
"u" into their own `friendsList`, violating the claimed no-self-reference
invariant. -/
theorem addFriend_allows_self_reference :
    (userStoreGet (addFriendBy [("u", freshOwnerProfile)] "u" "u")
        "u").map (fun p => p.friendsList) = some ["u"] := by decide

/-- C9 (amended): every sequence of `addFriend`/`removeFriend` calls
preserves the no-duplicates property of `friendsList` (given it held
before); the no-self-reference part of the claimed invariant is not
enforced by the code. -/
theorem friendOps_preserve_nodup (p : UserProfile) (ops : List FriendOp)
    (h : p.friendsList.Nodup) :
    (applyFriendOps p ops).friendsList.Nodup := by
  induction ops generalizing p with
  | nil => simpa [applyFriendOps] using h
  | cons op rest ih =>
    cases op with
    | add f =>
      rw [applyFriendOps]
      apply ih
      by_cases hf : f ∈ p.friendsList
      · simpa [addFriend, hf] using h
      · have happ : (addFriend p f).friendsList = p.friendsList ++ [f] := by
          simp [addFriend, hf]
        rw [happ, List.nodup_append]
        refine ⟨h, List.nodup_singleton f, ?_⟩
        simpa [List.disjoint_singleton] using hf
    | remove f =>
      rw [applyFriendOps]
      apply ih
      simpa [removeFriend] using h.filter _

/-- C9 witness. -/
theorem friendOps_preserve_nodup_w :
    (applyFriendOps freshOwnerProfile
        [FriendOp.add "a", FriendOp.add "b",
          FriendOp.remove "a"]).friendsList.Nodup :=
  friendOps_preserve_nodup freshOwnerProfile
    [FriendOp.add "a", FriendOp.add "b", FriendOp.remove "a"] (by decide)

/-- Projecting an enriched player1-side room back to its store pair is the
original pair. -/
theorem map_proj_enrichAsPlayer1 (own : Option String)
    (users : String → Option String) (l : List (String × Room)) :
    (l.map (enrichAsPlayer1 own users)).map (fun e => (e.id, e.room)) = l := by
  induction l with
  | nil => rfl
  | cons a t ih => simp [enrichAsPlayer1, ih]

/-- Projecting an enriched player2-side room back to its store pair is the
original pair. -/
theorem map_proj_enrichAsPlayer2 (own : Option String)
    (users : String → Option String) (l : List (String × Room)) :
    (l.map (enrichAsPlayer2 own users)).map (fun e => (e.id, e.room)) = l := by
  induction l with
  | nil => rfl
  | cons a t ih => simp [enrichAsPlayer2, ih]

/-- In a store where no room lists its creator as second player, the two
participant queries concatenated are a permutation of the single
is-participant filter. -/
theorem filter_participants_perm (s : RoomStore) (uid : String)
    (hne : ∀ p ∈ s, p.2.player2Id ≠ some p.2.player1Id) :
    (s.filter (fun p => decide (p.2.player1Id = uid)) ++
        s.filter (fun p => decide (p.2.player2Id = some uid))).Perm
      (s.filter
        (fun p =>
          decide (p.2.player1Id = uid ∨ p.2.player2Id = some uid))) := by
  induction s with
  | nil => simp
  | cons a t ih =>
    have ha := hne a (List.mem_cons_self a t)
    have iht := ih (fun p hp => hne p (List.mem_cons_of_mem a hp))
    by_cases h1 : a.2.player1Id = uid
    · have h2 : ¬ a.2.player2Id = some uid := by
        intro hq
        exact ha (by rw [h1]; exact hq)
      simp only [List.filter_cons, h1, h2, decide_eq_true_eq, if_pos,
        if_neg, decide_True, decide_False, or_false, true_or,
        decide_eq_false_iff_not, List.cons_append]
      exact iht.cons a
    · by_cases h2 : a.2.player2Id = some uid
      · simp only [List.filter_cons, h1, h2, decide_True, decide_False,
          false_or, or_true]
        exact List.perm_middle.trans (iht.cons a)
      · simp only [List.filter_cons, h1, h2, decide_True, decide_False,
          or_self, false_or]
        exact iht

/-- C5: listing a user's rooms returns exactly the rooms where the user is
`player1Id` or `player2Id` (as a permutation, before display ordering),
sorted by `createdAt` descending, each enriched with the opposing player's
display name with the placeholder fallbacks of the source ('Waiting...' on
the player1 side, 'Unknown' on the player2 side, 'You' for the own name).
The hypothesis — no room lists its creator as its second player — is the
store shape the join rules maintain. -/
theorem fetchRooms_spec (s : RoomStore) (uid : String)
    (ownUsername : Option String) (users : String → Option String)
    (hne : ∀ p ∈ s, p.2.player2Id ≠ some p.2.player1Id) :
    ((fetchRooms s uid ownUsername users).map
        (fun e => (e.id, e.room))).Perm
      (s.filter
        (fun p =>
          decide (p.2.player1Id = uid ∨ p.2.player2Id = some uid))) ∧
    List.Sorted byNewest (fetchRooms s uid ownUsername users) ∧
    (∀ e ∈ fetchRooms s uid ownUsername users,
      (e.room.player1Id = uid →
        e.player1Name = jsOrElse ownUsername "You" ∧
        e.player2Name =
          jsOrElse (fetchPlayer2Name users e.room) "Waiting...") ∧
      (e.room.player1Id ≠ uid →
        e.room.player2Id = some uid ∧
        e.player1Name = jsOrElse (users e.room.player1Id) "Unknown" ∧
        e.player2Name = jsOrElse ownUsername "You")) := by
  refine ⟨?_, List.sorted_insertionSort byNewest _, ?_⟩
  · have hperm :
        (fetchRooms s uid ownUsername users).Perm
          ((s.filter (fun p => decide (p.2.player1Id = uid))).map
              (enrichAsPlayer1 ownUsername users) ++
            (s.filter (fun p => decide (p.2.player2Id = some uid))).map
              (enrichAsPlayer2 ownUsername users)) :=
      List.perm_insertionSort byNewest _
    have h2 := hperm.map (fun e => (e.id, e.room))
    rw [List.map_append, map_proj_enrichAsPlayer1,
      map_proj_enrichAsPlayer2] at h2
    exact h2.trans (filter_participants_perm s uid hne)
  · intro e he
    have he2 : e ∈
        (s.filter (fun p => decide (p.2.player1Id = uid))).map
            (enrichAsPlayer1 ownUsername users) ++
          (s.filter (fun p => decide (p.2.player2Id = some uid))).map
            (enrichAsPlayer2 ownUsername users) :=
      ((List.perm_insertionSort byNewest _).mem_iff).mp he
    rw [List.mem_append] at he2
    rcases he2 with h1 | h2
    · rcases List.mem_map.mp h1 with ⟨p, hp, rfl⟩
      rcases List.mem_filter.mp hp with ⟨hps, hcond⟩
      have hp1 : p.2.player1Id = uid := of_decide_eq_true hcond
      exact ⟨fun _ => ⟨rfl, rfl⟩, fun hne1 => absurd hp1 hne1⟩
    · rcases List.mem_map.mp h2 with ⟨p, hp, rfl⟩
      rcases List.mem_filter.mp hp with ⟨hps, hcond⟩
      have hp2 : p.2.player2Id = some uid := of_decide_eq_true hcond
      have hp1 : ¬ p.2.player1Id = uid := by
        intro hq
        exact hne p hps (hp2.trans (congrArg some hq.symm))
      exact ⟨fun hq => absurd hq hp1, fun _ => ⟨hp2, rfl, rfl⟩⟩

/-- A small store: "u" created r1, joined r2 as second player, and is not
in r3. -/
def demoRoomStore : RoomStore :=
  [("r1", createRoom "u" 5),
    ("r2", { createRoom "a" 9 with player2Id := some "u" }),
    ("r3", createRoom "b" 7)]

/-- C5 witness. -/
theorem fetchRooms_spec_w :
    ((fetchRooms demoRoomStore "u" (some "me")
        (fun _ => none)).map (fun e => (e.id, e.room))).Perm
      (demoRoomStore.filter
        (fun p =>
          decide (p.2.player1Id = "u" ∨ p.2.player2Id = some "u"))) :=
  (fetchRooms_spec demoRoomStore "u" (some "me") (fun _ => none)
    (by decide)).1
